import Mathlib

/-
Verification of the image-fetcher program (src/main.py) against its
natural-language specification.

The embedding models the rendered page markup as the structure the code
queries: a list of tray containers, each with an optional header holding an
optional level-2 heading text, and a list of image divs each holding an
optional img tag with an optional src attribute.  External collaborators
(browser, HTTP client, image codec, filesystem) are modelled at their
interface boundary: the browser as a function from iteration index to an
event, the HTTP/codec side as a function from attempt index to an attempt
environment, format sniffing as a function from body bytes to an optional
extension, and the filesystem as a list of existing directory names.
Python exceptions are explicit data; `except` handlers are total matches.
-/

namespace ImageFetcher

/-- Python whitespace as str.strip removes it (space, tab, newline,
carriage return, vertical tab, form feed). -/
def isSpaceChar (c : Char) : Bool :=
  c = ' ' || c = '\t' || c = '\n' || c = '\r' || c = '\x0b' || c = '\x0c'

/-- Python str.lower on one character (ASCII case mapping). -/
def lowerChar (c : Char) : Char :=
  if 65 ≤ c.toNat ∧ c.toNat ≤ 90 then Char.ofNat (c.toNat + 32) else c

/-- Python str.split with a one-character separator: the list of chunks
between separator occurrences; the empty string yields one empty chunk. -/
def splitOnChar (sep : Char) : List Char → List (List Char)
  | [] => [[]]
  | c :: cs =>
    let r := splitOnChar sep cs
    if c = sep then [] :: r
    else
      match r with
      | [] => [[c]]
      | h :: t => (c :: h) :: t

/-- Python str.strip: drop whitespace from both ends. -/
def trimChars (l : List Char) : List Char :=
  ((l.dropWhile isSpaceChar).reverse.dropWhile isSpaceChar).reverse

/-- Join chunks back with a one-character separator. -/
def joinWithChar (sep : Char) : List (List Char) → List Char
  | [] => []
  | [h] => h
  | h :: t => h ++ sep :: joinWithChar sep t

/-- Python str.lower over a string. -/
def pyLower (s : String) : String :=
  String.mk (s.data.map lowerChar)

/-- Python str.strip over a string. -/
def pyStrip (s : String) : String :=
  String.mk (trimChars s.data)

/-- Python str.replace of every space by an underscore. -/
def pyReplaceSpace (s : String) : String :=
  String.mk (s.data.map (fun c => if c = ' ' then '_' else c))

/-- An img element: `img.get("src")` may be absent. -/
structure ImgTag where
  src : Option String
deriving DecidableEq, Repr

/-- A div with data-testid "hs-image": `img_div.find("img")` may be absent. -/
structure ImageDiv where
  img : Option ImgTag
deriving DecidableEq, Repr

/-- A div with data-testid "action": `header_container.find("h2")` may be
absent; when present, `h2` is the h2 element's raw text. -/
structure Header where
  h2 : Option String
deriving DecidableEq, Repr

/-- A div with data-testid "tray-container-base-wrapper": an optional header
sub-element and the tray's image divs in document order. -/
structure Tray where
  header : Option Header
  imageDivs : List ImageDiv
deriving DecidableEq, Repr

/-- The trimmed heading text of a tray, when the tray has a header
containing an h2 (main.py lines 42-46). -/
def trayHeadingText (t : Tray) : Option String :=
  match t.header with
  | none => none
  | some h =>
    match h.h2 with
    | none => none
    | some txt => some (pyStrip txt)

/-- The inner for-loop of scroll_until_all_sections_found (main.py lines
41-48): walk the tray containers in document order; for each tray with a
header and an h2, take the trimmed text; append it to the accumulator when
it is non-empty (Python truthiness of the string) and not already present. -/
def collectTitles : List Tray → List String → List String
  | [], acc => acc
  | t :: ts, acc =>
    match trayHeadingText t with
    | none => collectTitles ts acc
    | some title =>
      if title ≠ "" ∧ title ∉ acc then collectTitles ts (acc ++ [title])
      else collectTitles ts acc

/-- The valid heading texts of a snapshot: the trimmed, non-empty h2 texts
of trays that have a header with an h2, in document order (no
deduplication). -/
def validTitles (trays : List Tray) : List String :=
  trays.filterMap (fun t =>
    match trayHeadingText t with
    | none => none
    | some s => if s = "" then none else some s)

/-- Specification-style first-seen accumulation: append each title of the
stream that is not already present, preserving first-seen order. -/
def firstSeen : List String → List String → List String
  | [], acc => acc
  | x :: xs, acc =>
    if x ∉ acc then firstSeen xs (acc ++ [x])
    else firstSeen xs acc

/-- What the browser session does on one iteration of the discovery loop:
either an exception is raised before the snapshot's titles are processed
(e.g. while reading or parsing the page source), or a snapshot is parsed
and its titles processed, with a flag recording whether the scroll /
sleep step after processing raises. -/
inductive ScrollEvent where
  | throwEarly : ScrollEvent
  | snap (trays : List Tray) (errAfter : Bool) : ScrollEvent
deriving DecidableEq, Repr

/-- The discovery loop of scroll_until_all_sections_found (main.py lines
36-55): up to `n` more iterations starting at iteration index `i`; on an
exception anywhere in an iteration the loop breaks and the titles
accumulated so far are returned. -/
def scrollLoop (driver : Nat → ScrollEvent) : Nat → Nat → List String → List String
  | _, 0, acc => acc
  | i, n + 1, acc =>
    match driver i with
    | .throwEarly => acc
    | .snap trays errAfter =>
      let acc2 := collectTitles trays acc
      if errAfter then acc2 else scrollLoop driver (i + 1) n acc2

/-- scroll_until_all_sections_found (main.py lines 33-57): run the
discovery loop for at most `max_scrolls` iterations starting from an empty
title list. -/
def scroll_until_all_sections_found (driver : Nat → ScrollEvent) (max_scrolls : Nat) : List String :=
  scrollLoop driver 0 max_scrolls []

/-- Python exceptions as the retry logic distinguishes them: the requests
library's RequestException class versus any other Exception. -/
inductive PyExn where
  | requestExn : PyExn
  | otherExn : PyExn
deriving DecidableEq, Repr

/-- What the environment does on one download attempt: either an exception
is raised while fetching (requests.get / raise_for_status), or the body
bytes are fetched, with an optional exception raised later while decoding
or saving the image (Image.open / img.save). -/
inductive AttemptEnv where
  | raiseExn (e : PyExn) : AttemptEnv
  | fetched (bytes : List Nat) (saveExn : Option PyExn) : AttemptEnv
deriving DecidableEq, Repr

/-- os.path.basename for POSIX paths: the part after the last slash. -/
def basename (s : String) : String :=
  String.mk ((splitOnChar '/' s.data).getLastD s.data)

/-- Python str.split on a dot, index 0: the part before the first dot
(the whole string when it has no dot). -/
def beforeFirstDot (s : String) : String :=
  String.mk ((splitOnChar '.' s.data).headD s.data)

/-- os.path.join for two POSIX path components. -/
def joinPath (a b : String) : String :=
  match b.data with
  | '/' :: _ => b
  | _ =>
    if a = "" then b
    else
      match a.data.getLast? with
      | some '/' => String.mk (a.data ++ b.data)
      | _ => String.mk (a.data ++ '/' :: b.data)

/-- The path download_image saves to (main.py lines 77-78):
folder joined with the basename of the URL truncated at its first dot,
a dot, and the sniffed extension. -/
def savedPath (folder_path image_url ext : String) : String :=
  joinPath folder_path (beforeFirstDot (basename image_url) ++ "." ++ ext)

/-- Observable outcome of download_image: the returned value (`none`
models Python returning None when the loop body never runs), the number
of attempts started, the number of one-time-unit backoff sleeps incurred,
and the path of the saved file when one was written. -/
structure DLResult where
  result : Option Bool
  attemptsMade : Nat
  sleeps : Nat
  saved : Option String
deriving DecidableEq, Repr

/-- Modelled from the spec: the image codec collaborator's format sniffing
(the filetype library is outside this repository), detecting the format
from the magic bytes of the body, never from the URL or a declared type;
shown here for the JPEG, PNG and GIF signatures. -/
def filetypeGuess : List Nat → Option String
  | 0xFF :: 0xD8 :: 0xFF :: _ => some "jpg"
  | 0x89 :: 0x50 :: 0x4E :: 0x47 :: 0x0D :: 0x0A :: 0x1A :: 0x0A :: _ => some "png"
  | 0x47 :: 0x49 :: 0x46 :: _ => some "gif"
  | _ => none

/-- The retry loop of download_image (main.py lines 62-87), counted by
remaining attempts: `remaining = 1` is the last attempt (Python's
`attempt == retries - 1`).  Each attempt: fetch (an exception here is
caught by the inner generic handler); sniff the fetched bytes (an
unrecognized format returns False with no retry); decode and save (an
exception here is also caught by the inner handler).  On a caught
exception the loop returns False if on the last attempt, otherwise sleeps
one time unit and retries. -/
def downloadLoop (sniff : List Nat → Option String) (folder_path image_url : String)
    (env : Nat → AttemptEnv) : Nat → DLResult
  | 0 => ⟨none, 0, 0, none⟩
  | n + 1 =>
    match env 0 with
    | .raiseExn _ =>
      if n = 0 then ⟨some false, 1, 0, none⟩
      else
        let r := downloadLoop sniff folder_path image_url (fun i => env (i + 1)) n
        ⟨r.result, r.attemptsMade + 1, r.sleeps + 1, r.saved⟩
    | .fetched bytes saveExn =>
      match sniff bytes with
      | none => ⟨some false, 1, 0, none⟩
      | some ext =>
        match saveExn with
        | some _ =>
          if n = 0 then ⟨some false, 1, 0, none⟩
          else
            let r := downloadLoop sniff folder_path image_url (fun i => env (i + 1)) n
            ⟨r.result, r.attemptsMade + 1, r.sleeps + 1, r.saved⟩
        | none => ⟨some true, 1, 0, some (savedPath folder_path image_url ext)⟩

/-- download_image (main.py lines 60-91): run the retry loop for
`range(retries)` attempts (empty for a non-positive budget, in which case
the function falls through and returns None).  The loop body handles every
exception, so the outer handler for RequestException contributes nothing. -/
def download_image (sniff : List Nat → Option String) (env : Nat → AttemptEnv)
    (image_url folder_path : String) (retries : Int) : DLResult :=
  downloadLoop sniff folder_path image_url env retries.toNat

/-- Replace the exception values an environment raises, leaving the rest
of each attempt unchanged. -/
def mapExnEnv (g : PyExn → PyExn) : AttemptEnv → AttemptEnv
  | .raiseExn e => .raiseExn (g e)
  | .fetched bytes none => .fetched bytes none
  | .fetched bytes (some e) => .fetched bytes (some (g e))

/-- Whether an attempt in this environment raises an exception that
reaches the inner handler under this sniffing function: either the fetch
raises, or the fetch succeeds, sniffing recognizes the format (otherwise
the attempt returns False before decoding), and decoding or saving raises. -/
def raisesUnder (sniff : List Nat → Option String) : AttemptEnv → Bool
  | .raiseExn _ => true
  | .fetched bytes saveExn => saveExn.isSome && (sniff bytes).isSome

/-- create_output_directory's folder name (main.py line 95): spaces
replaced by underscores, lowercased, suffixed with "_images". -/
def folderNameOf (section_title : String) : String :=
  pyLower (pyReplaceSpace section_title) ++ "_images"

/-- os.makedirs over a filesystem modelled as the list of existing
directories: creating an existing directory errors unless exist_ok. -/
def makedirs (fs : List String) (d : String) (exist_ok : Bool) : Except Unit (List String) :=
  if d ∈ fs then (if exist_ok then .ok fs else .error ()) else .ok (fs ++ [d])

/-- create_output_directory (main.py lines 94-97): derive the folder name
and create it with exist_ok=True, returning the name and the new
filesystem state. -/
def create_output_directory (fs : List String) (section_title : String) :
    Except Unit (String × List String) :=
  let folder_name := folderNameOf section_title
  match makedirs fs folder_name true with
  | .ok fs2 => .ok (folder_name, fs2)
  | .error e => .error e

/-- The tray-matching test of main (main.py lines 140-143): the tray has a
header, the header has an h2, and the trimmed, lowercased h2 text equals
the lowercased selected title. -/
def trayMatches (selected : String) (t : Tray) : Bool :=
  match t.header with
  | none => false
  | some h =>
    match h.h2 with
    | none => false
    | some txt => if pyLower (pyStrip txt) = pyLower selected then true else false

/-- The image URLs main extracts from one tray (main.py lines 144-160):
each image div's img tag's src attribute, skipping divs without an img
tag, imgs without a src, and empty src strings (Python truthiness). -/
def trayImageURLs (t : Tray) : List String :=
  t.imageDivs.filterMap (fun d =>
    match d.img with
    | none => none
    | some im =>
      match im.src with
      | none => none
      | some u => if u = "" then none else some u)

/-- The download-driving loop of main (main.py lines 139-160): walk every
tray container; for each tray whose heading matches the selected title
case-insensitively (no break after a match), invoke the downloader on each
of its image URLs; record the attempted (url, outcome) pairs in order. -/
def mainDownloads (trays : List Tray) (selected : String) (dl : String → Bool) :
    List (String × Bool) :=
  match trays with
  | [] => []
  | t :: ts =>
    (if trayMatches selected t then (trayImageURLs t).map (fun u => (u, dl u)) else [])
      ++ mainDownloads ts selected dl

/-- Modelled from the spec's words "basename-of-url-without-extension": the
basename with its extension (the part from the last dot on) removed; the
whole basename when it contains no dot.  Used only to compare the spec's
stated filename against the one the code computes. -/
def specBasenameWithoutExtension (s : String) : String :=
  let parts := splitOnChar '.' s.data
  if parts.length ≤ 1 then s else String.mk (joinWithChar '.' parts.dropLast)

theorem collectTitles_eq_firstSeen (trays : List Tray) :
    ∀ acc, collectTitles trays acc = firstSeen (validTitles trays) acc := by
  induction trays with
  | nil => intro acc; rfl
  | cons t ts ih =>
    intro acc
    cases h : trayHeadingText t with
    | none => simp [collectTitles, validTitles, h, ih]
    | some s =>
      by_cases hs : s = ""
      · subst hs
        simp [collectTitles, validTitles, h, ih]
      · by_cases hm : s ∈ acc
        · simp [collectTitles, validTitles, h, hs, hm, firstSeen, ih]
        · simp [collectTitles, validTitles, h, hs, hm, firstSeen, ih]

theorem firstSeen_exists_rest (l : List String) :
    ∀ acc, ∃ rest, firstSeen l acc = acc ++ rest := by
  induction l with
  | nil => intro acc; exact ⟨[], by simp [firstSeen]⟩
  | cons x xs ih =>
    intro acc
    by_cases hm : x ∈ acc
    · obtain ⟨r, hr⟩ := ih acc
      exact ⟨r, by simp [firstSeen, hm, hr]⟩
    · obtain ⟨r, hr⟩ := ih (acc ++ [x])
      exact ⟨[x] ++ r, by simp [firstSeen, hm, hr]⟩

theorem firstSeen_nodup (l : List String) :
    ∀ acc, acc.Nodup → (firstSeen l acc).Nodup := by
  induction l with
  | nil => intro acc h; simpa [firstSeen] using h
  | cons x xs ih =>
    intro acc h
    by_cases hm : x ∈ acc
    · simpa [firstSeen, hm] using ih acc h
    · have h2 : (acc ++ [x]).Nodup := by
        simp [List.nodup_append, h, List.disjoint_singleton, hm]
      simpa [firstSeen, hm] using ih (acc ++ [x]) h2

theorem firstSeen_of_nodup (l : List String) :
    ∀ acc, (∀ x ∈ l, x ∉ acc) → l.Nodup → firstSeen l acc = acc ++ l := by
  induction l with
  | nil => intro acc _ _; simp [firstSeen]
  | cons x xs ih =>
    intro acc hdisj hnd
    have hx : x ∉ acc := hdisj x (by simp)
    have hx2 : x ∉ xs := (List.nodup_cons.mp hnd).1
    have hrec : firstSeen xs (acc ++ [x]) = (acc ++ [x]) ++ xs := by
      apply ih
      · intro y hy
        simp only [List.mem_append, List.mem_singleton]
        push_neg
        refine ⟨hdisj y (List.mem_cons_of_mem x hy), ?_⟩
        intro he
        exact hx2 (he ▸ hy)
      · exact (List.nodup_cons.mp hnd).2
    simp [firstSeen, hx, hrec]

theorem scrollLoop_exists_rest (driver : Nat → ScrollEvent) :
    ∀ n i acc, ∃ rest, scrollLoop driver i n acc = acc ++ rest := by
  intro n
  induction n with
  | zero => intro i acc; exact ⟨[], by simp [scrollLoop]⟩
  | succ n ih =>
    intro i acc
    cases hd : driver i with
    | throwEarly => exact ⟨[], by simp [scrollLoop, hd]⟩
    | snap trays errAfter =>
      obtain ⟨r1, hr1⟩ : ∃ r, collectTitles trays acc = acc ++ r := by
        rw [collectTitles_eq_firstSeen]
        exact firstSeen_exists_rest _ _
      cases errAfter with
      | true => exact ⟨r1, by simp [scrollLoop, hd, hr1]⟩
      | false =>
        obtain ⟨r2, hr2⟩ := ih (i + 1) (collectTitles trays acc)
        refine ⟨r1 ++ r2, ?_⟩
        rw [hr1] at hr2
        simp [scrollLoop, hd, hr1, hr2]

theorem scrollLoop_nodup (driver : Nat → ScrollEvent) :
    ∀ n i acc, acc.Nodup → (scrollLoop driver i n acc).Nodup := by
  intro n
  induction n with
  | zero => intro i acc h; simpa [scrollLoop] using h
  | succ n ih =>
    intro i acc h
    cases hd : driver i with
    | throwEarly => simpa [scrollLoop, hd] using h
    | snap trays errAfter =>
      have h2 : (collectTitles trays acc).Nodup := by
        rw [collectTitles_eq_firstSeen]
        exact firstSeen_nodup _ _ h
      cases errAfter with
      | true => simpa [scrollLoop, hd] using h2
      | false => simpa [scrollLoop, hd] using ih (i + 1) _ h2

theorem scrollLoop_clean_shift (driver : Nat → ScrollEvent) :
    ∀ j i n acc, j ≤ n →
      (∀ k, k < j → ∃ tr, driver (i + k) = .snap tr false) →
      scrollLoop driver i n acc
        = scrollLoop driver (i + j) (n - j) (scrollLoop driver i j acc) := by
  intro j
  induction j with
  | zero => intro i n acc _ _; simp [scrollLoop]
  | succ j ih =>
    intro i n acc hjn hclean
    obtain ⟨tr, htr⟩ := hclean 0 (Nat.succ_pos j)
    have hdi : driver i = .snap tr false := by simpa using htr
    obtain ⟨n1, rfl⟩ : ∃ m, n = m + 1 := ⟨n - 1, by omega⟩
    have h1 : scrollLoop driver i (n1 + 1) acc
        = scrollLoop driver (i + 1) n1 (collectTitles tr acc) := by
      simp [scrollLoop, hdi]
    have h2 : scrollLoop driver i (j + 1) acc
        = scrollLoop driver (i + 1) j (collectTitles tr acc) := by
      simp [scrollLoop, hdi]
    rw [h1, h2]
    have hclean2 : ∀ k, k < j → ∃ tr2, driver (i + 1 + k) = .snap tr2 false := by
      intro k hk
      have hx := hclean (k + 1) (by omega)
      have he : i + (k + 1) = i + 1 + k := by omega
      rw [he] at hx
      exact hx
    have hmain := ih (i + 1) n1 (collectTitles tr acc) (by omega) hclean2
    rw [hmain]
    have e1 : i + 1 + j = i + (j + 1) := by omega
    have e2 : n1 - j = n1 + 1 - (j + 1) := by omega
    rw [e1, e2]

theorem downloadLoop_succ (sniff : List Nat → Option String) (folder url : String)
    (env : Nat → AttemptEnv) (n : Nat) :
    downloadLoop sniff folder url env (n + 1)
      = match env 0 with
        | .raiseExn _ =>
          if n = 0 then ⟨some false, 1, 0, none⟩
          else
            let r := downloadLoop sniff folder url (fun i => env (i + 1)) n
            ⟨r.result, r.attemptsMade + 1, r.sleeps + 1, r.saved⟩
        | .fetched bytes saveExn =>
          match sniff bytes with
          | none => ⟨some false, 1, 0, none⟩
          | some ext =>
            match saveExn with
            | some _ =>
              if n = 0 then ⟨some false, 1, 0, none⟩
              else
                let r := downloadLoop sniff folder url (fun i => env (i + 1)) n
                ⟨r.result, r.attemptsMade + 1, r.sleeps + 1, r.saved⟩
            | none => ⟨some true, 1, 0, some (savedPath folder url ext)⟩ := by
  rfl

theorem downloadLoop_isSome (sniff : List Nat → Option String) (folder url : String) :
    ∀ n env, ((downloadLoop sniff folder url env (n + 1)).result).isSome = true := by
  intro n
  induction n with
  | zero =>
    intro env
    cases henv : env 0 with
    | raiseExn e => simp [downloadLoop, henv]
    | fetched bytes se =>
      cases hs : sniff bytes with
      | none => simp [downloadLoop, henv, hs]
      | some ext =>
        cases se with
        | none => simp [downloadLoop, henv, hs]
        | some e => simp [downloadLoop, henv, hs]
  | succ n ih =>
    intro env
    cases henv : env 0 with
    | raiseExn e => simpa [downloadLoop, henv] using ih (fun i => env (i + 1))
    | fetched bytes se =>
      cases hs : sniff bytes with
      | none => simp [downloadLoop, henv, hs]
      | some ext =>
        cases se with
        | none => simp [downloadLoop, henv, hs]
        | some e => simpa [downloadLoop, henv, hs] using ih (fun i => env (i + 1))

theorem downloadLoop_mapExn (sniff : List Nat → Option String) (folder url : String)
    (g : PyExn → PyExn) :
    ∀ n env genv, (∀ i, genv i = mapExnEnv g (env i)) →
      downloadLoop sniff folder url genv n = downloadLoop sniff folder url env n := by
  intro n
  induction n with
  | zero => intro env genv _; rfl
  | succ n ih =>
    intro env genv hg
    rw [downloadLoop_succ, downloadLoop_succ]
    have h0 := hg 0
    have hrec := ih (fun i => env (i + 1)) (fun i => genv (i + 1)) (fun i => hg (i + 1))
    cases henv : env 0 with
    | raiseExn e =>
      rw [henv] at h0
      simp only [mapExnEnv] at h0
      rw [h0]
      simp [hrec]
    | fetched bytes se =>
      cases se with
      | none =>
        rw [henv] at h0
        simp only [mapExnEnv] at h0
        rw [h0]
      | some e =>
        rw [henv] at h0
        simp only [mapExnEnv] at h0
        rw [h0]
        simp [hrec]

theorem downloadLoop_allRaise (sniff : List Nat → Option String) (folder url : String) :
    ∀ n env, 1 ≤ n → (∀ i, i < n → raisesUnder sniff (env i) = true) →
      downloadLoop sniff folder url env n = ⟨some false, n, n - 1, none⟩ := by
  intro n
  induction n with
  | zero => intro env h _; omega
  | succ n ih =>
    intro env _ hall
    have h0 := hall 0 (by omega)
    rw [downloadLoop_succ]
    cases henv : env 0 with
    | raiseExn e =>
      cases n with
      | zero => simp [henv]
      | succ m =>
        have hrec := ih (fun i => env (i + 1)) (by omega)
          (fun i hi => hall (i + 1) (by omega))
        simp [henv, hrec]
    | fetched bytes se =>
      rw [henv] at h0
      simp only [raisesUnder, Bool.and_eq_true] at h0
      obtain ⟨e, he⟩ := Option.isSome_iff_exists.mp h0.1
      obtain ⟨ext, hext⟩ := Option.isSome_iff_exists.mp h0.2
      subst he
      cases n with
      | zero => simp [henv, hext]
      | succ m =>
        have hrec := ih (fun i => env (i + 1)) (by omega)
          (fun i hi => hall (i + 1) (by omega))
        simp [henv, hext, hrec]

theorem downloadLoop_saved (sniff : List Nat → Option String) (folder url : String) :
    ∀ n env p, (downloadLoop sniff folder url env n).saved = some p →
      ∃ j bytes ext, env j = .fetched bytes none ∧ sniff bytes = some ext ∧
        p = savedPath folder url ext := by
  intro n
  induction n with
  | zero => intro env p h; simp [downloadLoop] at h
  | succ n ih =>
    intro env p h
    rw [downloadLoop_succ] at h
    cases henv : env 0 with
    | raiseExn e =>
      rw [henv] at h
      cases n with
      | zero => simp at h
      | succ m =>
        simp at h
        obtain ⟨j, bytes, ext, h1, h2, h3⟩ := ih (fun i => env (i + 1)) p h
        exact ⟨j + 1, bytes, ext, h1, h2, h3⟩
    | fetched bytes se =>
      rw [henv] at h
      cases hs : sniff bytes with
      | none => simp [hs] at h
      | some ext =>
        cases se with
        | none =>
          simp [hs] at h
          exact ⟨0, bytes, ext, henv, hs, h.symm⟩
        | some e =>
          cases n with
          | zero => simp [hs] at h
          | succ m =>
            simp [hs] at h
            obtain ⟨j, b2, e2, h1, h2, h3⟩ := ih (fun i => env (i + 1)) p h
            exact ⟨j + 1, b2, e2, h1, h2, h3⟩

theorem mainDownloads_eq (selected : String) (dl : String → Bool) :
    ∀ trays : List Tray,
      mainDownloads trays selected dl
        = ((trays.filter (trayMatches selected)).flatMap trayImageURLs).map
            (fun u => (u, dl u)) := by
  intro trays
  induction trays with
  | nil => rfl
  | cons t ts ih =>
    by_cases hm : trayMatches selected t = true
    · simp [mainDownloads, List.filter_cons, hm, ih]
    · simp [mainDownloads, List.filter_cons, hm, ih]

/-- C1 (counterexample): the claim says that when several trays match the
chosen title after case-insensitive normalization, only the first matching
tray (in document order) contributes image URLs.  The loop in main has no
break after a match: with a tray titled "Trending" holding u1 followed by
a tray titled "TRENDING" holding u2, selecting "Trending" drives downloads
for both trays' URLs, not only the first tray's. -/
theorem claim_C1_counterexample :
    mainDownloads
      [⟨some ⟨some "Trending"⟩, [⟨some ⟨some "u1"⟩⟩]⟩,
       ⟨some ⟨some "TRENDING"⟩, [⟨some ⟨some "u2"⟩⟩]⟩]
      "Trending" (fun _ => true)
      = [("u1", true), ("u2", true)] ∧
    mainDownloads
      [⟨some ⟨some "Trending"⟩, [⟨some ⟨some "u1"⟩⟩]⟩,
       ⟨some ⟨some "TRENDING"⟩, [⟨some ⟨some "u2"⟩⟩]⟩]
      "Trending" (fun _ => true)
      ≠ [("u1", true)] := by
  constructor
  · decide
  · decide

/-- C1 (amended): when the chosen section title is resolved to trays for
image extraction, every tray whose heading text equals the chosen title
under case-insensitive comparison contributes its image URLs, concatenated
in document order (the loop has no break, so all matching trays
contribute, not only the first); if no tray matches, the resulting
sequence of image URLs is empty and zero downloads are attempted. -/
theorem claim_C1 (trays : List Tray) (selected : String) (dl : String → Bool) :
    mainDownloads trays selected dl
      = ((trays.filter (trayMatches selected)).flatMap trayImageURLs).map
          (fun u => (u, dl u)) ∧
    ((∀ t ∈ trays, trayMatches selected t = false) →
      mainDownloads trays selected dl = []) := by
  refine ⟨mainDownloads_eq selected dl trays, ?_⟩
  intro hnone
  rw [mainDownloads_eq selected dl trays]
  have hf : trays.filter (trayMatches selected) = [] := by
    rw [List.filter_eq_nil_iff]
    intro a ha
    simp [hnone a ha]
  simp [hf]

theorem claim_C1_witness :
    mainDownloads [⟨none, []⟩] "X" (fun _ => false) = [] :=
  (claim_C1 [⟨none, []⟩] "X" (fun _ => false)).2 (by decide)

/-- C2: across any run of the discovery loop the accumulated title list
contains no duplicates (deduplication by exact string equality) and is in
first-seen order: each pass over a snapshot equals the first-seen
accumulation of the snapshot's valid titles, and each loop step only
appends at the end (the accumulator is an initial segment of the result),
so a title repeated in later snapshots is not appended again and does not
change its position. -/
theorem claim_C2 (driver : Nat → ScrollEvent) (max_scrolls : Nat) :
    (scroll_until_all_sections_found driver max_scrolls).Nodup ∧
    (∀ (trays : List Tray) (acc : List String),
      collectTitles trays acc = firstSeen (validTitles trays) acc) ∧
    (∀ i n acc, List.Nodup acc →
      (scrollLoop driver i n acc).Nodup ∧
      ∃ rest, scrollLoop driver i n acc = acc ++ rest) := by
  refine ⟨?_, fun trays acc => collectTitles_eq_firstSeen trays acc, ?_⟩
  · exact scrollLoop_nodup driver max_scrolls 0 [] (by simp)
  · intro i n acc hacc
    exact ⟨scrollLoop_nodup driver n i acc hacc, scrollLoop_exists_rest driver n i acc⟩

theorem claim_C2_witness :
    (scrollLoop (fun _ => ScrollEvent.snap [] false) 0 2 ["A"]).Nodup ∧
    ∃ rest, scrollLoop (fun _ => ScrollEvent.snap [] false) 0 2 ["A"] = ["A"] ++ rest :=
  (claim_C2 (fun _ => ScrollEvent.snap [] false) 2).2.2 0 2 ["A"] (by decide)

/-- C3 (counterexample): the claim says a successfully downloaded image is
saved under the basename of the URL with its extension removed, plus the
sniffed extension.  The code truncates the basename at its FIRST dot: for
url "http://h/img.v2.png" fetched as JPEG bytes the file is saved at
"f/img.jpg", while the path the claim describes is "f/img.v2.jpg". -/
theorem claim_C3_counterexample :
    (download_image filetypeGuess (fun _ => AttemptEnv.fetched [0xFF, 0xD8, 0xFF, 0] none)
        "http://h/img.v2.png" "f" 3).saved = some "f/img.jpg" ∧
    joinPath "f" (specBasenameWithoutExtension (basename "http://h/img.v2.png") ++ "." ++ "jpg")
      = "f/img.v2.jpg" ∧
    some "f/img.jpg" ≠ some "f/img.v2.jpg" := by
  refine ⟨by decide, by decide, by decide⟩

/-- C3 (amended): whenever a download run saves a file, the saved path is
the destination folder joined with the basename of the URL truncated at
its first dot (not with its extension removed), a dot, and the extension
obtained by magic-byte sniffing of the fetched body bytes — never the
URL's own extension; the HTTP content-type plays no part in the saving
path at all. -/
theorem claim_C3 (sniff : List Nat → Option String) (env : Nat → AttemptEnv)
    (image_url folder_path : String) (retries : Int) (p : String)
    (h : (download_image sniff env image_url folder_path retries).saved = some p) :
    ∃ j bytes ext, env j = .fetched bytes none ∧ sniff bytes = some ext ∧
      p = joinPath folder_path (beforeFirstDot (basename image_url) ++ "." ++ ext) := by
  have hmain := downloadLoop_saved sniff folder_path image_url retries.toNat env p h
  simpa [savedPath] using hmain

theorem claim_C3_witness :
    ∃ j bytes ext,
      (fun i => if i < 2 then AttemptEnv.raiseExn PyExn.requestExn
                else AttemptEnv.fetched [0xFF, 0xD8, 0xFF] none) j
          = AttemptEnv.fetched bytes none ∧
      filetypeGuess bytes = some ext ∧
      "f/a.jpg" = joinPath "f" (beforeFirstDot (basename "http://h/a.png") ++ "." ++ ext) :=
  claim_C3 filetypeGuess
    (fun i => if i < 2 then AttemptEnv.raiseExn PyExn.requestExn
              else AttemptEnv.fetched [0xFF, 0xD8, 0xFF] none)
    "http://h/a.png" "f" 3 "f/a.jpg" (by decide)

/-- C4: when the fetched body bytes have no recognizable magic-byte
format, the download returns false immediately after that single attempt:
exactly one attempt is made and no backoff sleep is incurred, regardless
of how many retries remain in the budget. -/
theorem claim_C4 (sniff : List Nat → Option String) (env : Nat → AttemptEnv)
    (image_url folder_path : String) (bytes : List Nat) (se : Option PyExn)
    (retries : Int) (hr : 1 ≤ retries) (henv : env 0 = .fetched bytes se)
    (hs : sniff bytes = none) :
    download_image sniff env image_url folder_path retries
      = ⟨some false, 1, 0, none⟩ := by
  obtain ⟨m, hm⟩ : ∃ m, retries.toNat = m + 1 := ⟨retries.toNat - 1, by omega⟩
  rw [download_image, hm, downloadLoop_succ, henv]
  simp [hs]

theorem claim_C4_witness :
    download_image filetypeGuess (fun _ => AttemptEnv.fetched [1, 2, 3] none) "u" "f" 3
      = ⟨some false, 1, 0, none⟩ :=
  claim_C4 filetypeGuess (fun _ => AttemptEnv.fetched [1, 2, 3] none) "u" "f"
    [1, 2, 3] none 3 (by omega) rfl (by decide)

/-- C5: with a positive retry budget, an exception during an attempt that
is not the last causes exactly one fixed one-time-unit backoff sleep and
a retry whose outcome is the remaining loop's outcome; when every attempt
raises, the loop returns false to the caller after n attempts and n - 1
sleeps (a boolean value, never a propagated exception); and the whole
outcome is invariant under any renaming of exception kinds, so network
exceptions and generic exceptions are treated identically for the retry
decision. -/
theorem claim_C5 (sniff : List Nat → Option String) (env : Nat → AttemptEnv)
    (image_url folder_path : String) :
    (∀ (e : PyExn) (n : Nat), env 0 = .raiseExn e → 1 ≤ n →
      downloadLoop sniff folder_path image_url env (n + 1)
        = { result :=
              (downloadLoop sniff folder_path image_url (fun i => env (i + 1)) n).result,
            attemptsMade :=
              (downloadLoop sniff folder_path image_url (fun i => env (i + 1)) n).attemptsMade + 1,
            sleeps :=
              (downloadLoop sniff folder_path image_url (fun i => env (i + 1)) n).sleeps + 1,
            saved :=
              (downloadLoop sniff folder_path image_url (fun i => env (i + 1)) n).saved }) ∧
    (∀ n : Nat, 1 ≤ n → (∀ i, i < n → raisesUnder sniff (env i) = true) →
      downloadLoop sniff folder_path image_url env n = ⟨some false, n, n - 1, none⟩) ∧
    (∀ (g : PyExn → PyExn) (n : Nat),
      downloadLoop sniff folder_path image_url (fun i => mapExnEnv g (env i)) n
        = downloadLoop sniff folder_path image_url env n) := by
  refine ⟨?_, ?_, ?_⟩
  · intro e n henv hn
    rw [downloadLoop_succ, henv]
    have hne : ¬ n = 0 := by omega
    simp [hne]
  · intro n hn hall
    exact downloadLoop_allRaise sniff folder_path image_url n env hn hall
  · intro g n
    exact downloadLoop_mapExn sniff folder_path image_url g n env
      (fun i => mapExnEnv g (env i)) (fun i => rfl)

theorem claim_C5_witness :
    downloadLoop filetypeGuess "f" "u" (fun _ => AttemptEnv.raiseExn PyExn.requestExn) 3
      = ⟨some false, 3, 2, none⟩ :=
  (claim_C5 filetypeGuess (fun _ => AttemptEnv.raiseExn PyExn.requestExn) "u" "f").2.1 3
    (by omega) (fun i hi => rfl)

/-- C6: if some iteration of the discovery loop raises, the loop stops at
that iteration without propagating the exception and returns exactly the
titles accumulated before the failure point: an exception before the
snapshot is processed yields the result of running only the earlier
iterations, and an exception after processing (while scrolling or
sleeping) additionally keeps that iteration's titles. -/
theorem claim_C6 (driver : Nat → ScrollEvent) (max_scrolls j : Nat)
    (hj : j < max_scrolls)
    (hclean : ∀ k, k < j → ∃ tr, driver k = .snap tr false) :
    (driver j = .throwEarly →
      scroll_until_all_sections_found driver max_scrolls
        = scroll_until_all_sections_found driver j) ∧
    (∀ tr, driver j = .snap tr true →
      scroll_until_all_sections_found driver max_scrolls
        = collectTitles tr (scroll_until_all_sections_found driver j)) := by
  have hshift := scrollLoop_clean_shift driver j 0 max_scrolls [] (by omega)
    (by intro k hk; simpa using hclean k hk)
  obtain ⟨m, hm⟩ : ∃ m, max_scrolls - j = m + 1 := ⟨max_scrolls - j - 1, by omega⟩
  rw [hm] at hshift
  have h0j : (0 : Nat) + j = j := Nat.zero_add j
  rw [h0j] at hshift
  constructor
  · intro hthrow
    rw [scroll_until_all_sections_found, hshift]
    simp [scrollLoop, hthrow, scroll_until_all_sections_found]
  · intro tr hsnap
    rw [scroll_until_all_sections_found, hshift]
    simp [scrollLoop, hsnap, scroll_until_all_sections_found]

theorem claim_C6_witness :
    scroll_until_all_sections_found
      (fun i => if i = 1 then ScrollEvent.throwEarly
                else ScrollEvent.snap [⟨some ⟨some "A"⟩, []⟩] false) 3
      = scroll_until_all_sections_found
          (fun i => if i = 1 then ScrollEvent.throwEarly
                    else ScrollEvent.snap [⟨some ⟨some "A"⟩, []⟩] false) 1 ∧
    scroll_until_all_sections_found
      (fun i => if i = 1 then ScrollEvent.throwEarly
                else ScrollEvent.snap [⟨some ⟨some "A"⟩, []⟩] false) 1 = ["A"] := by
  constructor
  · exact (claim_C6
      (fun i => if i = 1 then ScrollEvent.throwEarly
                else ScrollEvent.snap [⟨some ⟨some "A"⟩, []⟩] false)
      3 1 (by omega)
      (by
        intro k hk
        interval_cases k
        exact ⟨[⟨some ⟨some "A"⟩, []⟩], rfl⟩)).1 rfl
  · decide

/-- C7 (counterexample): the claim says one extraction pass over a
snapshot with N trays carrying valid headings yields exactly the N
trimmed heading texts in document order.  The pass in the code
deduplicates while extracting: a snapshot with two trays both titled "A"
has two valid heading texts but one pass starting from an empty
accumulator yields only one. -/
theorem claim_C7_counterexample :
    collectTitles [⟨some ⟨some "A"⟩, []⟩, ⟨some ⟨some "A"⟩, []⟩] [] = ["A"] ∧
    validTitles [⟨some ⟨some "A"⟩, []⟩, ⟨some ⟨some "A"⟩, []⟩] = ["A", "A"] ∧
    (["A"] : List String) ≠ ["A", "A"] := by
  refine ⟨by decide, by decide, by decide⟩

/-- C7 (amended): for a markup snapshot whose valid heading texts (trays
with a header holding a level-2 heading whose trimmed text is non-empty)
are pairwise distinct, one extraction pass starting from an empty
accumulator yields exactly those trimmed texts in document order; trays
lacking a header, lacking a level-2 heading, or with empty trimmed text
contribute nothing, and the pass is a total function, so no exception
arises for them. -/
theorem claim_C7 (trays : List Tray) (hnd : (validTitles trays).Nodup) :
    collectTitles trays [] = validTitles trays := by
  rw [collectTitles_eq_firstSeen]
  have hmain := firstSeen_of_nodup (validTitles trays) [] (by simp) hnd
  simpa using hmain

theorem claim_C7_witness :
    collectTitles [⟨some ⟨some " A "⟩, []⟩, ⟨none, []⟩, ⟨some ⟨some "B"⟩, []⟩] []
      = validTitles [⟨some ⟨some " A "⟩, []⟩, ⟨none, []⟩, ⟨some ⟨some "B"⟩, []⟩] :=
  claim_C7 _ (by decide)

/-- C8: the output directory name is deterministically the section title
with spaces replaced by underscores, lowercased, suffixed with the fixed
marker "_images"; creation succeeds on any filesystem state, and creating
again for the same title succeeds with the same name and leaves the
filesystem unchanged (idempotent creation under exist_ok). -/
theorem claim_C8 (fs : List String) (section_title : String) :
    ∃ fs2,
      create_output_directory fs section_title
        = .ok (folderNameOf section_title, fs2) ∧
      folderNameOf section_title
        = pyLower (pyReplaceSpace section_title) ++ "_images" ∧
      create_output_directory fs2 section_title
        = .ok (folderNameOf section_title, fs2) := by
  by_cases hmem : folderNameOf section_title ∈ fs
  · refine ⟨fs, ?_, rfl, ?_⟩
    · simp [create_output_directory, makedirs, hmem]
    · simp [create_output_directory, makedirs, hmem]
  · refine ⟨fs ++ [folderNameOf section_title], ?_, rfl, ?_⟩
    · simp [create_output_directory, makedirs, hmem]
    · simp [create_output_directory, makedirs]

/-- C9: with a retry budget of zero or less the attempt loop body never
runs and download_image yields None rather than a boolean (no attempts,
no sleeps, nothing saved); the documented boolean return value holds
exactly under the precondition that the budget is at least one. -/
theorem claim_C9 (sniff : List Nat → Option String) (env : Nat → AttemptEnv)
    (image_url folder_path : String) (retries : Int) :
    (retries ≤ 0 →
      download_image sniff env image_url folder_path retries = ⟨none, 0, 0, none⟩) ∧
    (1 ≤ retries →
      ((download_image sniff env image_url folder_path retries).result).isSome = true) := by
  constructor
  · intro h
    have h0 : retries.toNat = 0 := by omega
    rw [download_image, h0]
    rfl
  · intro h
    obtain ⟨m, hm⟩ : ∃ m, retries.toNat = m + 1 := ⟨retries.toNat - 1, by omega⟩
    rw [download_image, hm]
    exact downloadLoop_isSome sniff folder_path image_url m env

theorem claim_C9_witness :
    download_image filetypeGuess (fun _ => AttemptEnv.raiseExn PyExn.otherExn) "u" "f" (-1)
      = ⟨none, 0, 0, none⟩ ∧
    ((download_image filetypeGuess (fun _ => AttemptEnv.raiseExn PyExn.otherExn)
        "u" "f" 2).result).isSome = true :=
  ⟨(claim_C9 filetypeGuess (fun _ => AttemptEnv.raiseExn PyExn.otherExn) "u" "f" (-1)).1
      (by omega),
   (claim_C9 filetypeGuess (fun _ => AttemptEnv.raiseExn PyExn.otherExn) "u" "f" 2).2
      (by omega)⟩

/-- C10: every exception raised inside a download attempt is handled by
the inner generic handler: with a positive budget download_image always
hands the caller a boolean (no exception ever propagates, so the outer
handler for request exceptions is never the one that produces the
outcome), and the outcome is invariant under any renaming of exception
kinds — a request exception follows exactly the same inner retry path as
a generic exception. -/
theorem claim_C10 (sniff : List Nat → Option String) (env : Nat → AttemptEnv)
    (image_url folder_path : String) (retries : Int) :
    (1 ≤ retries →
      ((download_image sniff env image_url folder_path retries).result).isSome = true) ∧
    (∀ g : PyExn → PyExn,
      download_image sniff (fun i => mapExnEnv g (env i)) image_url folder_path retries
        = download_image sniff env image_url folder_path retries) := by
  constructor
  · intro h
    obtain ⟨m, hm⟩ : ∃ m, retries.toNat = m + 1 := ⟨retries.toNat - 1, by omega⟩
    rw [download_image, hm]
    exact downloadLoop_isSome sniff folder_path image_url m env
  · intro g
    rw [download_image, download_image]
    exact downloadLoop_mapExn sniff folder_path image_url g retries.toNat env
      (fun i => mapExnEnv g (env i)) (fun i => rfl)

theorem claim_C10_witness :
    ((download_image filetypeGuess (fun _ => AttemptEnv.raiseExn PyExn.requestExn)
        "u" "f" 3).result).isSome = true ∧
    download_image filetypeGuess
        (fun i => mapExnEnv (fun _ => PyExn.otherExn)
          ((fun _ => AttemptEnv.raiseExn PyExn.requestExn) i)) "u" "f" 3
      = download_image filetypeGuess (fun _ => AttemptEnv.raiseExn PyExn.requestExn)
          "u" "f" 3 :=
  ⟨(claim_C10 filetypeGuess (fun _ => AttemptEnv.raiseExn PyExn.requestExn) "u" "f" 3).1
      (by omega),
   (claim_C10 filetypeGuess (fun _ => AttemptEnv.raiseExn PyExn.requestExn) "u" "f" 3).2
      (fun _ => PyExn.otherExn)⟩

end ImageFetcher
